import Mathlib

/-
Verification of the grammar and highlight-query resolution subsystem of
src/shared/src/language.rs. Rust strings are embedded as lists of
characters; the external crates (tree-sitter, the grammar loader, the
nvim-treesitter query store) are embedded as an explicit environment of
abstract functions, so that every theorem quantifies over all possible
behaviours of those collaborators.
-/

namespace Ki

/-- Embedding of a Rust String / str as a list of characters. -/
abbrev Str := List Char

/-- Convenience conversion from a Lean string literal. -/
def str (s : String) : Str := s.toList

/-- Boolean prefix test on character lists. -/
def isPfx : Str → Str → Bool
  | [], _ => true
  | _ :: _, [] => false
  | a :: as, b :: bs => if a = b then isPfx as bs else false

/-- Worker for the embedding of Rust str::replace. Scans left to right;
a positive skip counter drops characters that belong to a replaced match. -/
def replGo (pat rep : Str) : Str → Nat → Str
  | [], _ => []
  | c :: rest, k =>
    match k with
    | Nat.succ k2 => replGo pat rep rest k2
    | 0 =>
      if isPfx pat (c :: rest) && !pat.isEmpty then
        rep ++ replGo pat rep rest (pat.length - 1)
      else
        c :: replGo pat rep rest 0

/-- Embedding of Rust str::replace (leftmost, non-overlapping matches).
The six patterns used by the source are all nonempty, so the behaviour on
an empty pattern is irrelevant here. -/
def replaceS (s pat rep : Str) : Str := replGo pat rep s 0

/-- Boolean substring test: does pat occur anywhere in the string. -/
def occurs (pat : Str) : Str → Bool
  | [] => pat.isEmpty
  | c :: rest => isPfx pat (c :: rest) || occurs pat rest

/-- The text transform applied to a community (nvim-treesitter) query,
exactly the chain of replace calls in Language::highlight_query_nvim_treesitter. -/
def nvimTransform (s : Str) : Str :=
  replaceS
    (replaceS
      (replaceS
        (replaceS
          (replaceS
            (replaceS s (str "lua-match") (str "match"))
            (str "vim-match") (str "match"))
          (str "@none") (str ""))
        (str "@conceal") (str ""))
      (str "@spell") (str ""))
    (str "@nospell") (str "")

/-- Embedding of LanguageId (a newtype over String). -/
structure LanguageId where
  id : Str
deriving DecidableEq

/-- Embedding of Command. -/
structure Command where
  command : Str
  arguments : List Str
deriving DecidableEq

/-- Embedding of LspCommand; serde_json::Value is embedded opaquely as text. -/
structure LspCommand where
  command : Command
  initialization_options : Option Str
deriving DecidableEq

/-- Embedding of the closed enum CargoLinkedTreesitterLanguage. -/
inductive CargoLinkedTreesitterLanguage
  | Typescript | TSX | Python | Julia | Scheme | OCaml | OCamlInterface
  | Rust | Graphql | Javascript | JSX | Svelte | JSON | YAML | HTML
  | XML | Zig | Markdown | Go | Lua | Gleam | Bash | C | CPP | CSS
  | Ruby | Nix | Fish | Diff | Elixir | Swift | Heex | Toml
  | KiQuickfix | Haskell | Hcl
deriving DecidableEq

/-- Embedding of GrammarConfigKind. -/
inductive GrammarConfigKind
  | CargoLinked (language : CargoLinkedTreesitterLanguage)
  | FromSource (url : Str) (commit : Str) (subpath : Option Str)
deriving DecidableEq

/-- Embedding of GrammarConfig. -/
structure GrammarConfig where
  id : Str
  kind : GrammarConfigKind
deriving DecidableEq

/-- Embedding of the Language struct. -/
structure Language where
  extensions : List Str
  file_names : List Str
  lsp_language_id : Option LanguageId
  lsp_command : Option LspCommand
  tree_sitter_grammar_config : Option GrammarConfig
  formatter : Option Command
  line_comment_prefix : Option Str
  block_comment_affixes : Option (Str × Str)
deriving DecidableEq

/-- Embedding of the record returned by ts_highlight_query::get_highlight_query. -/
structure NvimQueryResult where
  query : Str
deriving DecidableEq

/-- Environment of external collaborators. TSLang embeds the opaque
tree_sitter::Language handle type; G embeds the opaque
grammar::grammar::GrammarConfiguration type. Every field is an abstract
function, so theorems below hold for every behaviour of the collaborators:
tsLanguageConst gives the compiled-in grammar constant of an external
crate, keyed by the constant path used in the source; highlightsConst
likewise gives the bundled HIGHLIGHTS_QUERY constants; query_new is the
success test of tree_sitter::Query::new; get_language and
load_runtime_file embed the fallible loaders of the grammar crate; remote
embeds the constructor GrammarConfiguration::remote. -/
structure ExtEnv (TSLang G : Type) where
  tsLanguageConst : Str → TSLang
  highlightsConst : Str → Str
  get_highlight_query : Str → Option NvimQueryResult
  query_new : TSLang → Str → Bool
  get_language : Str → Except Str TSLang
  load_runtime_file : Str → Str → Except Str Str
  remote : Str → Str → Str → Option Str → G

/-- Embedding of CargoLinkedTreesitterLanguage::to_tree_sitter_language:
a total dispatch from the closed enum into the compiled-in grammar
constants, with no failure branch. -/
def CargoLinkedTreesitterLanguage.to_tree_sitter_language {T G : Type}
    (env : ExtEnv T G) : CargoLinkedTreesitterLanguage → T
  | .Typescript => env.tsLanguageConst (str "tree_sitter_typescript::LANGUAGE_TYPESCRIPT")
  | .TSX => env.tsLanguageConst (str "tree_sitter_typescript::LANGUAGE_TSX")
  | .Python => env.tsLanguageConst (str "tree_sitter_python::LANGUAGE")
  | .Julia => env.tsLanguageConst (str "tree_sitter_julia::LANGUAGE")
  | .Scheme => env.tsLanguageConst (str "tree_sitter_scheme::LANGUAGE")
  | .OCaml => env.tsLanguageConst (str "tree_sitter_ocaml::LANGUAGE_OCAML")
  | .OCamlInterface => env.tsLanguageConst (str "tree_sitter_ocaml::LANGUAGE_OCAML_INTERFACE")
  | .Rust => env.tsLanguageConst (str "tree_sitter_rust::LANGUAGE")
  | .Graphql => env.tsLanguageConst (str "tree_sitter_graphql::LANGUAGE")
  | .Javascript => env.tsLanguageConst (str "tree_sitter_javascript::LANGUAGE")
  | .JSX => env.tsLanguageConst (str "tree_sitter_javascript::LANGUAGE")
  | .Svelte => env.tsLanguageConst (str "tree_sitter_svelte_ng::LANGUAGE")
  | .JSON => env.tsLanguageConst (str "tree_sitter_json::LANGUAGE")
  | .YAML => env.tsLanguageConst (str "tree_sitter_yaml::LANGUAGE")
  | .HTML => env.tsLanguageConst (str "tree_sitter_html::LANGUAGE")
  | .Haskell => env.tsLanguageConst (str "tree_sitter_haskell::LANGUAGE")
  | .XML => env.tsLanguageConst (str "tree_sitter_xml::LANGUAGE_XML")
  | .Zig => env.tsLanguageConst (str "tree_sitter_zig::LANGUAGE")
  | .Markdown => env.tsLanguageConst (str "tree_sitter_md::LANGUAGE")
  | .Go => env.tsLanguageConst (str "tree_sitter_go::LANGUAGE")
  | .Lua => env.tsLanguageConst (str "tree_sitter_lua::LANGUAGE")
  | .Gleam => env.tsLanguageConst (str "tree_sitter_gleam::LANGUAGE")
  | .Bash => env.tsLanguageConst (str "tree_sitter_bash::LANGUAGE")
  | .C => env.tsLanguageConst (str "tree_sitter_c::LANGUAGE")
  | .CPP => env.tsLanguageConst (str "tree_sitter_cpp::LANGUAGE")
  | .CSS => env.tsLanguageConst (str "tree_sitter_css::LANGUAGE")
  | .Ruby => env.tsLanguageConst (str "tree_sitter_ruby::LANGUAGE")
  | .Nix => env.tsLanguageConst (str "tree_sitter_nix::LANGUAGE")
  | .Fish => env.tsLanguageConst (str "tree_sitter_fish::language()")
  | .Diff => env.tsLanguageConst (str "tree_sitter_diff::LANGUAGE")
  | .Elixir => env.tsLanguageConst (str "tree_sitter_elixir::LANGUAGE")
  | .Swift => env.tsLanguageConst (str "tree_sitter_swift::LANGUAGE")
  | .Heex => env.tsLanguageConst (str "tree_sitter_heex::LANGUAGE")
  | .Toml => env.tsLanguageConst (str "tree_sitter_toml_ng::LANGUAGE")
  | .KiQuickfix => env.tsLanguageConst (str "tree_sitter_quickfix::language()")
  | .Hcl => env.tsLanguageConst (str "tree_sitter_hcl::LANGUAGE")

/-- Embedding of CargoLinkedTreesitterLanguage::default_highlight_query. -/
def CargoLinkedTreesitterLanguage.default_highlight_query {T G : Type}
    (env : ExtEnv T G) : CargoLinkedTreesitterLanguage → Option Str
  | .Typescript => some (env.highlightsConst (str "tree_sitter_typescript::HIGHLIGHTS_QUERY"))
  | .TSX => some (env.highlightsConst (str "tree_sitter_typescript::HIGHLIGHTS_QUERY"))
  | .Python => some (env.highlightsConst (str "tree_sitter_python::HIGHLIGHTS_QUERY"))
  | .Julia => none
  | .Scheme => some (env.highlightsConst (str "tree_sitter_scheme::HIGHLIGHTS_QUERY"))
  | .OCaml => some (env.highlightsConst (str "tree_sitter_ocaml::HIGHLIGHTS_QUERY"))
  | .OCamlInterface => some (env.highlightsConst (str "tree_sitter_ocaml::HIGHLIGHTS_QUERY"))
  | .Rust => some (env.highlightsConst (str "tree_sitter_rust::HIGHLIGHTS_QUERY"))
  | .Graphql => none
  | .Javascript => some (env.highlightsConst (str "tree_sitter_javascript::HIGHLIGHT_QUERY"))
  | .JSX => some (env.highlightsConst (str "tree_sitter_javascript::HIGHLIGHT_QUERY"))
  | .Svelte => some (env.highlightsConst (str "tree_sitter_svelte_ng::HIGHLIGHTS_QUERY"))
  | .JSON => some (env.highlightsConst (str "tree_sitter_json::HIGHLIGHTS_QUERY"))
  | .YAML => some (env.highlightsConst (str "tree_sitter_yaml::HIGHLIGHTS_QUERY"))
  | .HTML => some (env.highlightsConst (str "tree_sitter_html::HIGHLIGHTS_QUERY"))
  | .Haskell => some (env.highlightsConst (str "tree_sitter_haskell::HIGHLIGHTS_QUERY"))
  | .XML => some (env.highlightsConst (str "tree_sitter_xml::XML_HIGHLIGHT_QUERY"))
  | .Zig => some (env.highlightsConst (str "tree_sitter_zig::HIGHLIGHTS_QUERY"))
  | .Markdown => some (env.highlightsConst (str "tree_sitter_md::HIGHLIGHT_QUERY_BLOCK"))
  | .Go => some (env.highlightsConst (str "tree_sitter_go::HIGHLIGHTS_QUERY"))
  | .Lua => some (env.highlightsConst (str "tree_sitter_lua::HIGHLIGHTS_QUERY"))
  | .Gleam => some (env.highlightsConst (str "tree_sitter_gleam::HIGHLIGHT_QUERY"))
  | .Bash => some (env.highlightsConst (str "tree_sitter_bash::HIGHLIGHT_QUERY"))
  | .C => some (env.highlightsConst (str "tree_sitter_c::HIGHLIGHT_QUERY"))
  | .CPP => some (env.highlightsConst (str "tree_sitter_cpp::HIGHLIGHT_QUERY"))
  | .CSS => some (env.highlightsConst (str "tree_sitter_css::HIGHLIGHTS_QUERY"))
  | .Ruby => some (env.highlightsConst (str "tree_sitter_ruby::HIGHLIGHTS_QUERY"))
  | .Nix => some (env.highlightsConst (str "tree_sitter_nix::HIGHLIGHTS_QUERY"))
  | .Fish => some (env.highlightsConst (str "tree_sitter_fish::HIGHLIGHTS_QUERY"))
  | .Diff => some (env.highlightsConst (str "tree_sitter_diff::HIGHLIGHTS_QUERY"))
  | .Elixir => some (env.highlightsConst (str "tree_sitter_elixir::HIGHLIGHTS_QUERY"))
  | .Swift => some (env.highlightsConst (str "tree_sitter_swift::HIGHLIGHTS_QUERY"))
  | .Heex => some (env.highlightsConst (str "tree_sitter_heex::HIGHLIGHTS_QUERY"))
  | .Toml => some (env.highlightsConst (str "tree_sitter_toml_ng::HIGHLIGHTS_QUERY"))
  | .KiQuickfix => some (str " (header) @keyword")
  | .Hcl => none

/-- Embedding of Language::tree_sitter_language. -/
def Language.tree_sitter_language {T G : Type} (env : ExtEnv T G)
    (self : Language) : Option T :=
  match self.tree_sitter_grammar_config with
  | none => none
  | some config =>
    match config.kind with
    | .CargoLinked language => some (language.to_tree_sitter_language env)
    | .FromSource _ _ _ => (env.get_language config.id).toOption

/-- Embedding of Language::tree_sitter_grammar_id. -/
def Language.tree_sitter_grammar_id (self : Language) : Option Str :=
  match self.tree_sitter_grammar_config with
  | none => none
  | some config => some config.id

/-- Embedding of the accessor method Language::tree_sitter_grammar_config
(renamed here because the Lean structure field of the same name already
exists; the body mirrors the source, including the second read of the
field inside the FromSource arm). -/
def Language.tree_sitter_grammar_configuration {T G : Type} (env : ExtEnv T G)
    (self : Language) : Option G :=
  match self.tree_sitter_grammar_config with
  | none => none
  | some config =>
    match config.kind with
    | .CargoLinked _ => none
    | .FromSource url commit subpath =>
      self.tree_sitter_grammar_config.map fun config2 =>
        env.remote config2.id url commit subpath

/-- Embedding of Language::highlight_query_nvim_treesitter. -/
def Language.highlight_query_nvim_treesitter {T G : Type} (env : ExtEnv T G)
    (self : Language) : Option Str :=
  match self.tree_sitter_grammar_config with
  | none => none
  | some config =>
    (env.get_highlight_query config.id).map fun result => nvimTransform result.query

/-- Embedding of Language::highlight_query_default. -/
def Language.highlight_query_default {T G : Type} (env : ExtEnv T G)
    (self : Language) : Option Str :=
  match self.tree_sitter_grammar_config with
  | none => none
  | some config =>
    match config.kind with
    | .CargoLinked language => language.default_highlight_query env
    | .FromSource _ _ _ =>
      match self.tree_sitter_grammar_id with
      | none => none
      | some gid => (env.load_runtime_file gid (str "highlights.scm")).toOption

/-- Embedding of Language::highlight_query. When the community query is
present, the grammar handle is resolved; a failed resolution propagates as
None through the question mark inside the Query::new argument. On a failed
compilation the source formats a log message that itself reads the grammar
config through another question mark, mirrored by the inner match. -/
def Language.highlight_query {T G : Type} (env : ExtEnv T G)
    (self : Language) : Option Str :=
  match self.highlight_query_nvim_treesitter env with
  | some query =>
    match self.tree_sitter_language env with
    | none => none
    | some lang =>
      if env.query_new lang query then some query
      else
        match self.tree_sitter_grammar_config with
        | none => none
        | some _ => self.highlight_query_default env
  | none => self.highlight_query_default env

/- Specification-side model of candidate texts in which the six
substitution tokens occur isolated: a candidate is rendered from segments,
each segment being one of the tokens, the canonical replacement word, or
separator text drawn from characters outside the token alphabet. -/

/-- All characters occurring in the six substitution tokens. -/
def tokenChars : Str := str "lua-mtchvi@noesp"

/-- A segment of a token-isolated candidate text. -/
inductive Seg
  | luaMatch | vimMatch | atNone | atConceal | atSpell | atNospell | matchTok
  | sep (s : Str)
deriving DecidableEq

/-- The text of one segment. -/
def renderSeg : Seg → Str
  | .luaMatch => str "lua-match"
  | .vimMatch => str "vim-match"
  | .atNone => str "@none"
  | .atConceal => str "@conceal"
  | .atSpell => str "@spell"
  | .atNospell => str "@nospell"
  | .matchTok => str "match"
  | .sep s => s

/-- The text of a segment list. -/
def render : List Seg → Str
  | [] => []
  | s :: rest => renderSeg s ++ render rest

/-- A separator segment may only hold characters outside the token alphabet. -/
def segWf : Seg → Prop
  | .sep s => ∀ c ∈ s, c ∉ tokenChars
  | _ => True

instance (s : Seg) : Decidable (segWf s) := by
  cases s
  case sep t => exact inferInstanceAs (Decidable (∀ c ∈ t, c ∉ tokenChars))
  all_goals exact inferInstanceAs (Decidable True)

/-- A token-isolated candidate: every separator is clean. -/
def wfSegs (segs : List Seg) : Prop := ∀ s ∈ segs, segWf s

instance (segs : List Seg) : Decidable (wfSegs segs) :=
  inferInstanceAs (Decidable (∀ s ∈ segs, segWf s))

/-- One of the six text substitutions of the community-query transform. -/
inductive Subst
  | lua | vim | non | conceal | spell | nospell
deriving DecidableEq

/-- The pattern of a substitution. -/
def substPat : Subst → Str
  | .lua => str "lua-match"
  | .vim => str "vim-match"
  | .non => str "@none"
  | .conceal => str "@conceal"
  | .spell => str "@spell"
  | .nospell => str "@nospell"

/-- The replacement of a substitution. -/
def substRep : Subst → Str
  | .lua => str "match"
  | .vim => str "match"
  | .non => str ""
  | .conceal => str ""
  | .spell => str ""
  | .nospell => str ""

/-- Apply one substitution to a text. -/
def applySubst (sub : Subst) (s : Str) : Str :=
  replaceS s (substPat sub) (substRep sub)

/-- Apply a list of substitutions left to right. -/
def applyOrder (order : List Subst) (s : Str) : Str :=
  order.foldl (fun acc sub => applySubst sub acc) s

/-- The substitutions in the order the source applies them. -/
def allSubsts : List Subst := [.lua, .vim, .non, .conceal, .spell, .nospell]

/-- The effect of one substitution on one segment. -/
def applySeg (sub : Subst) (s : Seg) : Seg :=
  match sub, s with
  | .lua, .luaMatch => .matchTok
  | .vim, .vimMatch => .matchTok
  | .non, .atNone => .sep []
  | .conceal, .atConceal => .sep []
  | .spell, .atSpell => .sep []
  | .nospell, .atNospell => .sep []
  | _, t => t

/-- The pointwise effect of a list of substitutions on one segment. -/
def applySegs (order : List Subst) (s : Seg) : Seg :=
  order.foldl (fun acc sub => applySeg sub acc) s

/-- The canonical pointwise effect of the full transform on one segment:
predicate spellings become the canonical word, markers vanish, separators
are untouched. -/
def canonSeg : Seg → Seg
  | .luaMatch => .matchTok
  | .vimMatch => .matchTok
  | .atNone => .sep []
  | .atConceal => .sep []
  | .atSpell => .sep []
  | .atNospell => .sep []
  | .matchTok => .matchTok
  | .sep t => .sep t

/-- Sufficient condition for one scan step of pattern p :: ps over the
strict suffix tl of a token followed by text never starting with u: either
the pattern clashes with tl inside tl, or the part of the pattern past tl
starts with u. -/
def scanStepOk (pat tl : Str) : Bool :=
  if pat.length ≤ tl.length then !(isPfx pat tl)
  else !(isPfx (pat.take tl.length) tl) || (pat.drop tl.length).head? == some 'u'

/- Concrete fixtures used by the witness theorems below. -/

/-- Environment with no community query and a bundled default for every
statically linked grammar. -/
def envDefaultOnly : ExtEnv Unit Unit :=
  ⟨fun _ => (), fun _ => str "DQ", fun _ => none, fun _ _ => false,
    fun _ => Except.ok (), fun _ _ => Except.ok (str "RQ"), fun _ _ _ _ => ()⟩

/-- Environment with a community query whose compilation fails. -/
def envCompileFail : ExtEnv Unit Unit :=
  ⟨fun _ => (), fun _ => str "DQ", fun _ => some ⟨str "lua-match"⟩,
    fun _ _ => false, fun _ => Except.ok (),
    fun _ _ => Except.ok (str "RQ"), fun _ _ _ _ => ()⟩

/-- Environment with a community query whose compilation succeeds. -/
def envCompileOk : ExtEnv Unit Unit :=
  ⟨fun _ => (), fun _ => str "DQ", fun _ => some ⟨str "lua-match"⟩,
    fun _ _ => true, fun _ => Except.ok (),
    fun _ _ => Except.ok (str "RQ"), fun _ _ _ _ => ()⟩

/-- Environment where remote grammar resolution fails, no community query
exists, and the runtime highlights file loads fine. -/
def envGrammarFailDefault : ExtEnv Unit Unit :=
  ⟨fun _ => (), fun _ => str "DQ", fun _ => none, fun _ _ => false,
    fun _ => Except.error (str "unreachable"),
    fun _ _ => Except.ok (str "default query"), fun _ _ _ _ => ()⟩

/-- Environment where remote grammar resolution fails and a community
query exists. -/
def envGrammarFailCommunity : ExtEnv Unit Unit :=
  ⟨fun _ => (), fun _ => str "DQ", fun _ => some ⟨str "lua-match"⟩,
    fun _ _ => false, fun _ => Except.error (str "unreachable"),
    fun _ _ => Except.ok (str "default query"), fun _ _ _ _ => ()⟩

/-- Language with no grammar reference. -/
def langNoGrammar : Language :=
  ⟨[], [], none, none, none, none, none, none⟩

/-- Language with a statically linked grammar. -/
def langCargo : Language :=
  ⟨[], [], none, none, some ⟨str "rust", .CargoLinked .Rust⟩, none, none, none⟩

/-- Language with a remote-source grammar. -/
def langFromSource : Language :=
  ⟨[], [], none, none,
    some ⟨str "lang", .FromSource (str "url") (str "commit") none⟩,
    none, none, none⟩

/-- Token-isolated candidate containing both predicate spellings and all
four markers. -/
def c4Segs : List Seg :=
  [.sep (str "( "), .luaMatch, .sep (str " "), .vimMatch, .sep (str " "),
    .atNone, .sep (str " "), .atConceal, .sep (str " "), .atSpell,
    .sep (str " "), .atNospell, .sep (str " )")]

/- Lemmas about the replace embedding. -/

lemma isPfx_append_self : ∀ (a y : Str), isPfx a (a ++ y) = true
  | [], _ => rfl
  | c :: cs, y => by
    show isPfx (c :: cs) (c :: (cs ++ y)) = true
    simp [isPfx, isPfx_append_self cs y]

lemma replGo_succ (pat rep : Str) (c : Char) (rest : Str) (k : Nat) :
    replGo pat rep (c :: rest) (k + 1) = replGo pat rep rest k := rfl

lemma replGo_append_len (pat rep y : Str) :
    ∀ a : Str, replGo pat rep (a ++ y) a.length = replGo pat rep y 0
  | [] => rfl
  | c :: cs => by
    show replGo pat rep (c :: (cs ++ y)) (cs.length + 1) = replGo pat rep y 0
    rw [replGo_succ]
    exact replGo_append_len pat rep y cs

lemma noMatchStep (pat rep : Str) (c : Char) (rest : Str)
    (h : isPfx pat (c :: rest) = false) :
    replGo pat rep (c :: rest) 0 = c :: replGo pat rep rest 0 := by
  simp [replGo, h]

lemma matchHead (p : Char) (ps rep y : Str) :
    replGo (p :: ps) rep ((p :: ps) ++ y) 0 = rep ++ replGo (p :: ps) rep y 0 := by
  have h1 : isPfx (p :: ps) (p :: (ps ++ y)) = true := isPfx_append_self (p :: ps) y
  show replGo (p :: ps) rep (p :: (ps ++ y)) 0 = rep ++ replGo (p :: ps) rep y 0
  simp only [replGo, h1, List.isEmpty_cons, Bool.not_false, Bool.and_self, if_true]
  congr 1
  have h3 : (p :: ps).length - 1 = ps.length := by simp
  rw [h3]
  exact replGo_append_len (p :: ps) rep y ps

lemma isPfx_append_of_le : ∀ (pat a y : Str), pat.length ≤ a.length →
    isPfx pat (a ++ y) = isPfx pat a
  | [], _, _, _ => rfl
  | _ :: _, [], _, h => by simp at h
  | p :: ps, c :: cs, y, h => by
    show isPfx (p :: ps) (c :: (cs ++ y)) = isPfx (p :: ps) (c :: cs)
    simp only [isPfx]
    rw [isPfx_append_of_le ps cs y (by simpa using h)]

lemma isPfx_append_split : ∀ (pat a y : Str), a.length < pat.length →
    isPfx pat (a ++ y)
      = (isPfx (pat.take a.length) a && isPfx (pat.drop a.length) y)
  | pat, [], y, _ => by simp [isPfx]
  | [], _ :: _, _, h => by simp at h
  | p :: ps, c :: cs, y, h => by
    show isPfx (p :: ps) (c :: (cs ++ y)) = _
    simp only [isPfx, List.length_cons, List.take_succ_cons, List.drop_succ_cons]
    by_cases hpc : p = c
    · simp only [hpc, if_true]
      rw [isPfx_append_split ps cs y (by simpa using h)]
    · simp [hpc]

lemma isPfx_u_false (l y : Str) (hy : ∀ z, y ≠ 'u' :: z) :
    isPfx ('u' :: l) y = false := by
  cases y with
  | nil => rfl
  | cons c y2 =>
    have hne : ¬ ('u' = c) := fun he => hy y2 (by rw [← he])
    simp [isPfx, hne]

lemma scanTok (p : Char) (ps rep y : Str) (hy : ∀ z, y ≠ 'u' :: z) :
    ∀ T : Str, (∀ i, i < T.length → scanStepOk (p :: ps) (T.drop i) = true) →
      replGo (p :: ps) rep (T ++ y) 0 = T ++ replGo (p :: ps) rep y 0
  | [], _ => rfl
  | c :: T2, hT => by
    have h0 : scanStepOk (p :: ps) (c :: T2) = true := by
      have := hT 0 (by simp)
      simpa using this
    have hpfx : isPfx (p :: ps) ((c :: T2) ++ y) = false := by
      unfold scanStepOk at h0
      by_cases hle : (p :: ps).length ≤ (c :: T2).length
      · rw [isPfx_append_of_le _ _ _ hle]
        simp only [hle, if_true, Bool.not_eq_true'] at h0
        exact h0
      · have hlt : (c :: T2).length < (p :: ps).length := by omega
        rw [isPfx_append_split _ _ _ hlt]
        simp only [hle, if_false, Bool.or_eq_true, Bool.not_eq_true'] at h0
        rcases h0 with h0 | h0
        · simp only [h0, Bool.false_and]
        · have hdrop : ∃ l, ((p :: ps).drop (c :: T2).length) = 'u' :: l := by
            cases hd : ((p :: ps).drop (c :: T2).length) with
            | nil => rw [hd] at h0; simp at h0
            | cons u0 l0 =>
              rw [hd] at h0
              simp only [List.head?_cons, beq_iff_eq, Option.some.injEq] at h0
              exact ⟨l0, by rw [h0]⟩
          rcases hdrop with ⟨l, hl⟩
          rw [hl, isPfx_u_false l y hy]
          simp
    rw [List.cons_append] at hpfx
    rw [List.cons_append, List.cons_append, noMatchStep _ _ _ _ hpfx]
    congr 1
    exact scanTok p ps rep y hy T2 fun i hi => by
      have := hT (i + 1) (by simpa using Nat.succ_lt_succ hi)
      simpa using this

lemma nvimTransform_eq_applyOrder (s : Str) :
    nvimTransform s = applyOrder allSubsts s := rfl

lemma scanClean (p : Char) (ps rep y : Str) (hp : p ∈ tokenChars) :
    ∀ s : Str, (∀ c ∈ s, c ∉ tokenChars) →
      replGo (p :: ps) rep (s ++ y) 0 = s ++ replGo (p :: ps) rep y 0
  | [], _ => rfl
  | c :: cs, hc => by
    have hne : ¬ (p = c) := fun he => (hc c (List.mem_cons_self c cs)) (he ▸ hp)
    have hpfx : isPfx (p :: ps) (c :: (cs ++ y)) = false := by
      simp [isPfx, hne]
    rw [List.cons_append, noMatchStep _ _ _ _ hpfx]
    congr 1
    exact scanClean p ps rep y hp cs fun d hd => hc d (List.mem_cons_of_mem c hd)

lemma render_head_ne_u : ∀ (segs : List Seg), wfSegs segs →
    ∀ z : Str, render segs ≠ 'u' :: z
  | [], _, z => by simp [render]
  | s :: rest, h, z => by
    have htail : wfSegs rest := fun t ht => h t (List.mem_cons_of_mem s ht)
    cases s with
    | sep t =>
      cases t with
      | nil =>
        show renderSeg (.sep []) ++ render rest ≠ 'u' :: z
        simpa [renderSeg] using render_head_ne_u rest htail z
      | cons c cs =>
        have hc : c ∉ tokenChars := h (.sep (c :: cs)) (List.mem_cons_self _ _) c (List.mem_cons_self c cs)
        have hcu : c ≠ 'u' := fun he => hc (he ▸ (by decide : 'u' ∈ tokenChars))
        show renderSeg (.sep (c :: cs)) ++ render rest ≠ 'u' :: z
        simp only [renderSeg, List.cons_append, ne_eq, List.cons.injEq, not_and]
        intro he
        exact absurd he hcu
    | luaMatch => simp [render, renderSeg, str]
    | vimMatch => simp [render, renderSeg, str]
    | atNone => simp [render, renderSeg, str]
    | atConceal => simp [render, renderSeg, str]
    | atSpell => simp [render, renderSeg, str]
    | atNospell => simp [render, renderSeg, str]
    | matchTok => simp [render, renderSeg, str]

/-- One scan step of one substitution across one segment followed by text
that never starts with the letter u. -/
lemma renderSeg_step (sub : Subst) (s : Seg) (y : Str)
    (hy : ∀ z, y ≠ 'u' :: z) (hs : segWf s) :
    replGo (substPat sub) (substRep sub) (renderSeg s ++ y) 0
      = renderSeg (applySeg sub s) ++ replGo (substPat sub) (substRep sub) y 0 := by
  cases sub <;> cases s <;>
    first
    | exact matchHead _ _ _ _
    | exact scanClean _ _ _ _ (by decide) _ hs
    | exact scanTok _ _ _ y hy _ (by decide)

lemma wfSegs_map_applySeg (sub : Subst) (segs : List Seg) (h : wfSegs segs) :
    wfSegs (segs.map (applySeg sub)) := by
  intro t ht
  rcases List.mem_map.mp ht with ⟨s0, hs0, rfl⟩
  have hw := h s0 hs0
  cases sub <;> cases s0 <;> first | exact hw | exact fun c hc => absurd hc (by simp)

lemma applySubst_render (sub : Subst) :
    ∀ (segs : List Seg), wfSegs segs →
      applySubst sub (render segs) = render (segs.map (applySeg sub))
  | [], _ => by rfl
  | s :: rest, h => by
    have htail : wfSegs rest := fun t ht => h t (List.mem_cons_of_mem s ht)
    have hy : ∀ z, render rest ≠ 'u' :: z := render_head_ne_u rest htail
    have hs : segWf s := h s (List.mem_cons_self s rest)
    show replGo (substPat sub) (substRep sub) (renderSeg s ++ render rest) 0 = _
    rw [renderSeg_step sub s (render rest) hy hs]
    show _ = renderSeg (applySeg sub s) ++ render (rest.map (applySeg sub))
    congr 1
    exact applySubst_render sub rest htail

lemma applyOrder_render : ∀ (order : List Subst) (segs : List Seg), wfSegs segs →
    applyOrder order (render segs) = render (segs.map (applySegs order))
  | [], segs, _ => by
    show render segs = render (segs.map (fun s => s))
    rw [List.map_id']
  | sub :: rest, segs, h => by
    show applyOrder rest (applySubst sub (render segs)) = _
    rw [applySubst_render sub segs h,
        applyOrder_render rest (segs.map (applySeg sub)) (wfSegs_map_applySeg sub segs h),
        List.map_map]
    rfl

lemma applySegs_sep (s : Str) : ∀ order : List Subst, applySegs order (.sep s) = .sep s
  | [] => rfl
  | sub :: rest => by
    show applySegs rest (applySeg sub (.sep s)) = _
    have : applySeg sub (.sep s) = .sep s := by cases sub <;> rfl
    rw [this, applySegs_sep s rest]

lemma applySegs_matchTok : ∀ order : List Subst, applySegs order .matchTok = .matchTok
  | [] => rfl
  | sub :: rest => by
    show applySegs rest (applySeg sub .matchTok) = _
    have : applySeg sub .matchTok = .matchTok := by cases sub <;> rfl
    rw [this, applySegs_matchTok rest]

lemma applySegs_luaMatch : ∀ order : List Subst, Subst.lua ∈ order →
    applySegs order .luaMatch = .matchTok
  | sub :: rest, hmem => by
    show applySegs rest (applySeg sub .luaMatch) = _
    cases sub with
    | lua => exact applySegs_matchTok rest
    | vim => exact applySegs_luaMatch rest (by simpa using hmem)
    | non => exact applySegs_luaMatch rest (by simpa using hmem)
    | conceal => exact applySegs_luaMatch rest (by simpa using hmem)
    | spell => exact applySegs_luaMatch rest (by simpa using hmem)
    | nospell => exact applySegs_luaMatch rest (by simpa using hmem)

lemma applySegs_vimMatch : ∀ order : List Subst, Subst.vim ∈ order →
    applySegs order .vimMatch = .matchTok
  | sub :: rest, hmem => by
    show applySegs rest (applySeg sub .vimMatch) = _
    cases sub with
    | vim => exact applySegs_matchTok rest
    | lua => exact applySegs_vimMatch rest (by simpa using hmem)
    | non => exact applySegs_vimMatch rest (by simpa using hmem)
    | conceal => exact applySegs_vimMatch rest (by simpa using hmem)
    | spell => exact applySegs_vimMatch rest (by simpa using hmem)
    | nospell => exact applySegs_vimMatch rest (by simpa using hmem)

lemma applySegs_atNone : ∀ order : List Subst, Subst.non ∈ order →
    applySegs order .atNone = .sep []
  | sub :: rest, hmem => by
    show applySegs rest (applySeg sub .atNone) = _
    cases sub with
    | non => exact applySegs_sep [] rest
    | lua => exact applySegs_atNone rest (by simpa using hmem)
    | vim => exact applySegs_atNone rest (by simpa using hmem)
    | conceal => exact applySegs_atNone rest (by simpa using hmem)
    | spell => exact applySegs_atNone rest (by simpa using hmem)
    | nospell => exact applySegs_atNone rest (by simpa using hmem)

lemma applySegs_atConceal : ∀ order : List Subst, Subst.conceal ∈ order →
    applySegs order .atConceal = .sep []
  | sub :: rest, hmem => by
    show applySegs rest (applySeg sub .atConceal) = _
    cases sub with
    | conceal => exact applySegs_sep [] rest
    | lua => exact applySegs_atConceal rest (by simpa using hmem)
    | vim => exact applySegs_atConceal rest (by simpa using hmem)
    | non => exact applySegs_atConceal rest (by simpa using hmem)
    | spell => exact applySegs_atConceal rest (by simpa using hmem)
    | nospell => exact applySegs_atConceal rest (by simpa using hmem)

lemma applySegs_atSpell : ∀ order : List Subst, Subst.spell ∈ order →
    applySegs order .atSpell = .sep []
  | sub :: rest, hmem => by
    show applySegs rest (applySeg sub .atSpell) = _
    cases sub with
    | spell => exact applySegs_sep [] rest
    | lua => exact applySegs_atSpell rest (by simpa using hmem)
    | vim => exact applySegs_atSpell rest (by simpa using hmem)
    | non => exact applySegs_atSpell rest (by simpa using hmem)
    | conceal => exact applySegs_atSpell rest (by simpa using hmem)
    | nospell => exact applySegs_atSpell rest (by simpa using hmem)

lemma applySegs_atNospell : ∀ order : List Subst, Subst.nospell ∈ order →
    applySegs order .atNospell = .sep []
  | sub :: rest, hmem => by
    show applySegs rest (applySeg sub .atNospell) = _
    cases sub with
    | nospell => exact applySegs_sep [] rest
    | lua => exact applySegs_atNospell rest (by simpa using hmem)
    | vim => exact applySegs_atNospell rest (by simpa using hmem)
    | non => exact applySegs_atNospell rest (by simpa using hmem)
    | conceal => exact applySegs_atNospell rest (by simpa using hmem)
    | spell => exact applySegs_atNospell rest (by simpa using hmem)

/-- The pointwise effect of the substitutions depends only on which
substitutions occur in the list, not on their order. -/
lemma applySegs_of_complete (order : List Subst)
    (hall : ∀ x : Subst, x ∈ order) (s : Seg) :
    applySegs order s = applySegs allSubsts s := by
  have hc : ∀ x : Subst, x ∈ allSubsts := fun x => by cases x <;> decide
  cases s with
  | luaMatch => rw [applySegs_luaMatch order (hall _), applySegs_luaMatch allSubsts (hc _)]
  | vimMatch => rw [applySegs_vimMatch order (hall _), applySegs_vimMatch allSubsts (hc _)]
  | atNone => rw [applySegs_atNone order (hall _), applySegs_atNone allSubsts (hc _)]
  | atConceal => rw [applySegs_atConceal order (hall _), applySegs_atConceal allSubsts (hc _)]
  | atSpell => rw [applySegs_atSpell order (hall _), applySegs_atSpell allSubsts (hc _)]
  | atNospell => rw [applySegs_atNospell order (hall _), applySegs_atNospell allSubsts (hc _)]
  | matchTok => rw [applySegs_matchTok order, applySegs_matchTok allSubsts]
  | sep t => rw [applySegs_sep t order, applySegs_sep t allSubsts]

lemma canonSeg_eq_applySegs_all (s : Seg) : applySegs allSubsts s = canonSeg s := by
  cases s <;> rfl

lemma occurs_false_of_head (p0 : Char) (ps : Str) :
    ∀ s : Str, (∀ x ∈ s, x ≠ p0) → occurs (p0 :: ps) s = false
  | [], _ => rfl
  | c :: rest, h => by
    have hne : ¬ (p0 = c) := fun he => (h c (List.mem_cons_self c rest)) he.symm
    show (isPfx (p0 :: ps) (c :: rest) || occurs (p0 :: ps) rest) = false
    rw [occurs_false_of_head p0 ps rest fun x hx => h x (List.mem_cons_of_mem c hx)]
    simp [isPfx, hne]

lemma render_canonSeg_chars : ∀ (segs : List Seg), wfSegs segs →
    ∀ c ∈ render (segs.map canonSeg), c ≠ '@' ∧ c ≠ 'l' ∧ c ≠ 'v'
  | [], _, c, hc => by simp [render] at hc
  | s :: rest, h, c, hc => by
    have htail : wfSegs rest := fun t ht => h t (List.mem_cons_of_mem s ht)
    have hc2 : c ∈ renderSeg (canonSeg s) ++ render (rest.map canonSeg) := hc
    rcases List.mem_append.mp hc2 with hc3 | hc3
    · cases s with
      | sep t =>
        have hw : c ∉ tokenChars := h (.sep t) (List.mem_cons_self _ _) c hc3
        exact ⟨fun he => hw (he ▸ (by decide : '@' ∈ tokenChars)),
          fun he => hw (he ▸ (by decide : 'l' ∈ tokenChars)),
          fun he => hw (he ▸ (by decide : 'v' ∈ tokenChars))⟩
      | luaMatch =>
        exact (by decide : ∀ x ∈ str "match", x ≠ '@' ∧ x ≠ 'l' ∧ x ≠ 'v') c hc3
      | vimMatch =>
        exact (by decide : ∀ x ∈ str "match", x ≠ '@' ∧ x ≠ 'l' ∧ x ≠ 'v') c hc3
      | atNone => exact absurd hc3 (by simp [renderSeg, canonSeg])
      | atConceal => exact absurd hc3 (by simp [renderSeg, canonSeg])
      | atSpell => exact absurd hc3 (by simp [renderSeg, canonSeg])
      | atNospell => exact absurd hc3 (by simp [renderSeg, canonSeg])
      | matchTok =>
        exact (by decide : ∀ x ∈ str "match", x ≠ '@' ∧ x ≠ 'l' ∧ x ≠ 'v') c hc3
    · exact render_canonSeg_chars rest htail c hc3

lemma replaceS_of_not_occurs (rep pat : Str) :
    ∀ s : Str, occurs pat s = false → replaceS s pat rep = s
  | [], _ => rfl
  | c :: rest, h => by
    have h1 : isPfx pat (c :: rest) = false := by
      by_contra hne
      simp only [occurs, Bool.or_eq_false_iff] at h
      exact absurd h.1 hne
    have h2 : occurs pat rest = false := by
      simp only [occurs, Bool.or_eq_false_iff] at h
      exact h.2
    show replGo pat rep (c :: rest) 0 = c :: rest
    rw [noMatchStep _ _ _ _ h1]
    congr 1
    exact replaceS_of_not_occurs rep pat rest h2

lemma grammar_config_of_nvim {T G : Type} (env : ExtEnv T G) (self : Language)
    (q : Str) (h : self.highlight_query_nvim_treesitter env = some q) :
    ∃ config, self.tree_sitter_grammar_config = some config := by
  cases hc : self.tree_sitter_grammar_config with
  | none =>
    rw [Language.highlight_query_nvim_treesitter, hc] at h
    exact absurd h (by simp)
  | some config => exact ⟨config, rfl⟩

/-- Claim C1: for every language config whose community (nvim-treesitter)
highlight query is present but fails to compile against the resolved
grammar, highlight_query returns exactly the result of the default-query
path (the default query if one exists and None otherwise), and the
compilation failure is never surfaced as an error to the caller. -/
theorem c1_compile_failure_falls_back {T G : Type} (env : ExtEnv T G)
    (self : Language) (q : Str) (lang : T)
    (hq : self.highlight_query_nvim_treesitter env = some q)
    (hl : self.tree_sitter_language env = some lang)
    (hc : env.query_new lang q = false) :
    self.highlight_query env = self.highlight_query_default env := by
  obtain ⟨config, hcfg⟩ := grammar_config_of_nvim env self q hq
  simp [Language.highlight_query, hq, hl, hc, hcfg]

/-- Witness for C1 at a concrete config and environment. -/
theorem c1_witness :
    langCargo.highlight_query_nvim_treesitter envCompileFail = some (str "match")
    ∧ langCargo.tree_sitter_language envCompileFail = some ()
    ∧ envCompileFail.query_new () (str "match") = false
    ∧ langCargo.highlight_query envCompileFail
      = langCargo.highlight_query_default envCompileFail :=
  ⟨by decide, by decide, by decide,
    c1_compile_failure_falls_back envCompileFail langCargo (str "match") ()
      (by decide) (by decide) (by decide)⟩

/-- Claim C2: for every language config that has both a community
highlight query compiling successfully against the resolved grammar and a
default highlight query, highlight_query returns the text-transformed
community query and never the default query. -/
theorem c2_community_preferred {T G : Type} (env : ExtEnv T G)
    (self : Language) (config : GrammarConfig) (raw : Str) (lang : T) (d : Str)
    (hcfg : self.tree_sitter_grammar_config = some config)
    (hq : env.get_highlight_query config.id = some ⟨raw⟩)
    (hl : self.tree_sitter_language env = some lang)
    (hc : env.query_new lang (nvimTransform raw) = true)
    (hd : self.highlight_query_default env = some d) :
    self.highlight_query env = some (nvimTransform raw)
    ∧ (nvimTransform raw ≠ d → self.highlight_query env ≠ some d) := by
  have hnvim : self.highlight_query_nvim_treesitter env = some (nvimTransform raw) := by
    simp [Language.highlight_query_nvim_treesitter, hcfg, hq]
  have h1 : self.highlight_query env = some (nvimTransform raw) := by
    simp [Language.highlight_query, hnvim, hl, hc]
  exact ⟨h1, fun hne heq => hne (Option.some.inj (h1 ▸ heq))⟩

/-- Witness for C2 at a concrete config and environment. -/
theorem c2_witness :
    langCargo.tree_sitter_grammar_config = some ⟨str "rust", .CargoLinked .Rust⟩
    ∧ envCompileOk.get_highlight_query (str "rust") = some ⟨str "lua-match"⟩
    ∧ langCargo.tree_sitter_language envCompileOk = some ()
    ∧ envCompileOk.query_new () (nvimTransform (str "lua-match")) = true
    ∧ langCargo.highlight_query_default envCompileOk = some (str "DQ")
    ∧ langCargo.highlight_query envCompileOk = some (nvimTransform (str "lua-match"))
    ∧ (nvimTransform (str "lua-match") ≠ str "DQ"
        → langCargo.highlight_query envCompileOk ≠ some (str "DQ")) :=
  ⟨by decide, by decide, by decide, by decide, by decide,
    (c2_community_preferred envCompileOk langCargo ⟨str "rust", .CargoLinked .Rust⟩
      (str "lua-match") () (str "DQ") (by decide) (by decide) (by decide)
      (by decide) (by decide)).1,
    (c2_community_preferred envCompileOk langCargo ⟨str "rust", .CargoLinked .Rust⟩
      (str "lua-match") () (str "DQ") (by decide) (by decide) (by decide)
      (by decide) (by decide)).2⟩

/-- Claim C3 as stated is false on the code: with a grammar reference
present, a failing grammar resolution, no community candidate and a
loadable runtime default, highlight_query returns the default instead of
None, because the grammar is only resolved when a community candidate
exists. -/
theorem c3_counterexample :
    (langFromSource.tree_sitter_grammar_config).isSome = true
    ∧ langFromSource.tree_sitter_language envGrammarFailDefault = none
    ∧ langFromSource.highlight_query envGrammarFailDefault
      = some (str "default query") := by
  decide

/-- Claim C3 amended: for every language config whose community query
lookup yields a candidate, if resolving the grammar handle fails then
highlight_query returns None, regardless of whether a default query
candidate exists; when no community candidate exists the grammar is never
resolved and the default may still be returned. -/
theorem c3_amended_grammar_failure_disables {T G : Type} (env : ExtEnv T G)
    (self : Language) (q : Str)
    (hq : self.highlight_query_nvim_treesitter env = some q)
    (hl : self.tree_sitter_language env = none) :
    self.highlight_query env = none := by
  simp [Language.highlight_query, hq, hl]

/-- Witness for the amended C3 at a concrete config and environment. -/
theorem c3_witness :
    langFromSource.highlight_query_nvim_treesitter envGrammarFailCommunity
      = some (str "match")
    ∧ langFromSource.tree_sitter_language envGrammarFailCommunity = none
    ∧ langFromSource.highlight_query envGrammarFailCommunity = none :=
  ⟨by decide, by decide,
    c3_amended_grammar_failure_disables envGrammarFailCommunity langFromSource
      (str "match") (by decide) (by decide)⟩

/-- Claim C4 as stated is false on the code: this candidate text contains
both predicate spellings and all four markers, yet the transformed output
still contains the marker at-none as a substring, because removing the
at-spell token splices one together. -/
theorem c4_counterexample :
    occurs (str "lua-match")
      (str "lua-match vim-match @none @conceal @spell @nospell @n@spellone") = true
    ∧ occurs (str "vim-match")
      (str "lua-match vim-match @none @conceal @spell @nospell @n@spellone") = true
    ∧ occurs (str "@none")
      (str "lua-match vim-match @none @conceal @spell @nospell @n@spellone") = true
    ∧ occurs (str "@conceal")
      (str "lua-match vim-match @none @conceal @spell @nospell @n@spellone") = true
    ∧ occurs (str "@spell")
      (str "lua-match vim-match @none @conceal @spell @nospell @n@spellone") = true
    ∧ occurs (str "@nospell")
      (str "lua-match vim-match @none @conceal @spell @nospell @n@spellone") = true
    ∧ occurs (str "@none")
      (nvimTransform
        (str "lua-match vim-match @none @conceal @spell @nospell @n@spellone")) = true := by
  decide

/-- Claim C4 amended: for every candidate text whose token occurrences are
isolated (rendered from segments whose separators avoid the token
alphabet) and which contains both predicate spellings and all four
markers, the transform rewrites each predicate-spelling token to the
canonical word, deletes every marker token, leaves separator text
unchanged (the segment-wise equation), and neither a marker nor a
predicate spelling occurs as a substring of the output. -/
theorem c4_transform_isolated (segs : List Seg) (hwf : wfSegs segs)
    (h1 : Seg.luaMatch ∈ segs) (h2 : Seg.vimMatch ∈ segs)
    (h3 : Seg.atNone ∈ segs) (h4 : Seg.atConceal ∈ segs)
    (h5 : Seg.atSpell ∈ segs) (h6 : Seg.atNospell ∈ segs) :
    nvimTransform (render segs) = render (segs.map canonSeg)
    ∧ occurs (str "lua-match") (nvimTransform (render segs)) = false
    ∧ occurs (str "vim-match") (nvimTransform (render segs)) = false
    ∧ occurs (str "@none") (nvimTransform (render segs)) = false
    ∧ occurs (str "@conceal") (nvimTransform (render segs)) = false
    ∧ occurs (str "@spell") (nvimTransform (render segs)) = false
    ∧ occurs (str "@nospell") (nvimTransform (render segs)) = false := by
  have heq : nvimTransform (render segs) = render (segs.map canonSeg) := by
    rw [nvimTransform_eq_applyOrder, applyOrder_render allSubsts segs hwf]
    congr 1
    exact List.map_congr_left fun s _ => canonSeg_eq_applySegs_all s
  have hchars := render_canonSeg_chars segs hwf
  refine ⟨heq, ?_, ?_, ?_, ?_, ?_, ?_⟩ <;> rw [heq]
  · exact occurs_false_of_head 'l' (str "ua-match") _ fun x hx => (hchars x hx).2.1
  · exact occurs_false_of_head 'v' (str "im-match") _ fun x hx => (hchars x hx).2.2
  · exact occurs_false_of_head '@' (str "none") _ fun x hx => (hchars x hx).1
  · exact occurs_false_of_head '@' (str "conceal") _ fun x hx => (hchars x hx).1
  · exact occurs_false_of_head '@' (str "spell") _ fun x hx => (hchars x hx).1
  · exact occurs_false_of_head '@' (str "nospell") _ fun x hx => (hchars x hx).1


/-- Witness for the amended C4 at a concrete token-isolated candidate. -/
theorem c4_witness :
    wfSegs c4Segs
    ∧ Seg.luaMatch ∈ c4Segs ∧ Seg.vimMatch ∈ c4Segs ∧ Seg.atNone ∈ c4Segs
    ∧ Seg.atConceal ∈ c4Segs ∧ Seg.atSpell ∈ c4Segs ∧ Seg.atNospell ∈ c4Segs
    ∧ (nvimTransform (render c4Segs) = render (c4Segs.map canonSeg)
      ∧ occurs (str "lua-match") (nvimTransform (render c4Segs)) = false
      ∧ occurs (str "vim-match") (nvimTransform (render c4Segs)) = false
      ∧ occurs (str "@none") (nvimTransform (render c4Segs)) = false
      ∧ occurs (str "@conceal") (nvimTransform (render c4Segs)) = false
      ∧ occurs (str "@spell") (nvimTransform (render c4Segs)) = false
      ∧ occurs (str "@nospell") (nvimTransform (render c4Segs)) = false) :=
  ⟨by decide, by decide, by decide, by decide, by decide, by decide, by decide,
    c4_transform_isolated c4Segs (by decide) (by decide) (by decide) (by decide)
      (by decide) (by decide) (by decide)⟩

/-- Claim C5 as stated is false on the code: the transform is not
idempotent on this input, because removing the at-spell token splices an
at-none marker that only a second application removes. -/
theorem c5_counterexample :
    nvimTransform (nvimTransform (str "@n@spellone"))
      ≠ nvimTransform (str "@n@spellone") := by
  decide

/-- Claim C5 amended: applying the community-query text transform twice
yields the same result as applying it once on every input whose
once-transformed output contains no residual occurrence of the six
substitution tokens; in general a removal can splice a new marker
occurrence, and the second application removes it. -/
theorem c5_idempotent_no_residual (s : Str)
    (h1 : occurs (str "lua-match") (nvimTransform s) = false)
    (h2 : occurs (str "vim-match") (nvimTransform s) = false)
    (h3 : occurs (str "@none") (nvimTransform s) = false)
    (h4 : occurs (str "@conceal") (nvimTransform s) = false)
    (h5 : occurs (str "@spell") (nvimTransform s) = false)
    (h6 : occurs (str "@nospell") (nvimTransform s) = false) :
    nvimTransform (nvimTransform s) = nvimTransform s := by
  have e1 := replaceS_of_not_occurs (str "match") (str "lua-match") (nvimTransform s) h1
  show replaceS
      (replaceS
        (replaceS
          (replaceS
            (replaceS
              (replaceS (nvimTransform s) (str "lua-match") (str "match"))
              (str "vim-match") (str "match"))
            (str "@none") (str ""))
          (str "@conceal") (str ""))
        (str "@spell") (str ""))
      (str "@nospell") (str "") = nvimTransform s
  rw [e1, replaceS_of_not_occurs (str "match") (str "vim-match") (nvimTransform s) h2,
      replaceS_of_not_occurs (str "") (str "@none") (nvimTransform s) h3,
      replaceS_of_not_occurs (str "") (str "@conceal") (nvimTransform s) h4,
      replaceS_of_not_occurs (str "") (str "@spell") (nvimTransform s) h5,
      replaceS_of_not_occurs (str "") (str "@nospell") (nvimTransform s) h6]

/-- Witness for the amended C5 at a concrete input. -/
theorem c5_witness :
    occurs (str "lua-match") (nvimTransform (str "(x lua-match @spell y)")) = false
    ∧ occurs (str "vim-match") (nvimTransform (str "(x lua-match @spell y)")) = false
    ∧ occurs (str "@none") (nvimTransform (str "(x lua-match @spell y)")) = false
    ∧ occurs (str "@conceal") (nvimTransform (str "(x lua-match @spell y)")) = false
    ∧ occurs (str "@spell") (nvimTransform (str "(x lua-match @spell y)")) = false
    ∧ occurs (str "@nospell") (nvimTransform (str "(x lua-match @spell y)")) = false
    ∧ nvimTransform (nvimTransform (str "(x lua-match @spell y)"))
      = nvimTransform (str "(x lua-match @spell y)") :=
  ⟨by decide, by decide, by decide, by decide, by decide, by decide,
    c5_idempotent_no_residual (str "(x lua-match @spell y)") (by decide)
      (by decide) (by decide) (by decide) (by decide) (by decide)⟩

/-- Claim C6 as stated is false on the code: applying the same set of
substitutions in a different order yields a different output on this
input, because the at-spell removal can splice an at-none marker whose
fate depends on whether the at-none removal already ran. -/
theorem c6_counterexample :
    List.Perm
      [Subst.spell, Subst.lua, Subst.vim, Subst.non, Subst.conceal, Subst.nospell]
      allSubsts
    ∧ applyOrder
        [Subst.spell, Subst.lua, Subst.vim, Subst.non, Subst.conceal, Subst.nospell]
        (str "@n@spellone")
      ≠ applyOrder allSubsts (str "@n@spellone") := by
  refine ⟨by decide, by decide⟩

/-- Claim C6 amended: the substitutions are order-independent on every
candidate text whose token occurrences are isolated (rendered from
segments whose separators avoid the token alphabet): applying them in any
order yields the output of the transform as the source orders them. On
general inputs the order matters, because one removal can create a new
occurrence of another token. -/
theorem c6_order_independent_isolated (order : List Subst)
    (horder : order.Perm allSubsts) (segs : List Seg) (hwf : wfSegs segs) :
    applyOrder order (render segs) = nvimTransform (render segs) := by
  have hall : ∀ x : Subst, x ∈ order := fun x =>
    horder.mem_iff.mpr (by cases x <;> decide)
  rw [nvimTransform_eq_applyOrder, applyOrder_render order segs hwf,
      applyOrder_render allSubsts segs hwf]
  congr 1
  exact List.map_congr_left fun s _ => applySegs_of_complete order hall s

/-- Witness for the amended C6 at a concrete order and candidate. -/
theorem c6_witness :
    List.Perm
      [Subst.nospell, Subst.spell, Subst.conceal, Subst.non, Subst.vim, Subst.lua]
      allSubsts
    ∧ wfSegs c4Segs
    ∧ applyOrder
        [Subst.nospell, Subst.spell, Subst.conceal, Subst.non, Subst.vim, Subst.lua]
        (render c4Segs)
      = nvimTransform (render c4Segs) :=
  ⟨by decide, by decide,
    c6_order_independent_isolated
      [Subst.nospell, Subst.spell, Subst.conceal, Subst.non, Subst.vim, Subst.lua]
      (by decide) c4Segs (by decide)⟩

/-- Claim C7: whenever the community lookup yields no candidate, or the
community candidate failed compilation, and the default provider yields a
candidate, highlight_query returns that default candidate; the environment
is arbitrary, so in particular nothing about the compilability of the
default text is assumed — it is returned without validation. -/
theorem c7_default_unvalidated {T G : Type} (env : ExtEnv T G)
    (self : Language) (d : Str)
    (h : self.highlight_query_nvim_treesitter env = none
      ∨ ∃ q lang, self.highlight_query_nvim_treesitter env = some q
          ∧ self.tree_sitter_language env = some lang
          ∧ env.query_new lang q = false)
    (hd : self.highlight_query_default env = some d) :
    self.highlight_query env = some d := by
  rcases h with h | ⟨q, lang, hq, hl, hc⟩
  · simp [Language.highlight_query, h, hd]
  · obtain ⟨config, hcfg⟩ := grammar_config_of_nvim env self q hq
    simp [Language.highlight_query, hq, hl, hc, hcfg, hd]

/-- Witness for C7 at a concrete config and environment whose query
compiler rejects every text, so the returned default would itself fail to
compile. -/
theorem c7_witness :
    langCargo.highlight_query_nvim_treesitter envDefaultOnly = none
    ∧ langCargo.highlight_query_default envDefaultOnly = some (str "DQ")
    ∧ envDefaultOnly.query_new () (str "DQ") = false
    ∧ langCargo.highlight_query envDefaultOnly = some (str "DQ") :=
  ⟨by decide, by decide, by decide,
    c7_default_unvalidated envDefaultOnly langCargo (str "DQ")
      (Or.inl (by decide)) (by decide)⟩

/-- Claim C8: for every language config with no grammar reference,
highlight_query returns None, for every behaviour of the query providers
(so no provider output can influence the result). -/
theorem c8_no_grammar_reference {T G : Type} (env : ExtEnv T G)
    (self : Language) (h : self.tree_sitter_grammar_config = none) :
    self.highlight_query env = none := by
  simp [Language.highlight_query, Language.highlight_query_nvim_treesitter,
    Language.highlight_query_default, h]

/-- Witness for C8 at a concrete config, under an environment in which
both providers would yield candidates. -/
theorem c8_witness :
    langNoGrammar.tree_sitter_grammar_config = none
    ∧ envCompileOk.get_highlight_query (str "rust") = some ⟨str "lua-match"⟩
    ∧ langNoGrammar.highlight_query envCompileOk = none :=
  ⟨by decide, by decide, c8_no_grammar_reference envCompileOk langNoGrammar (by decide)⟩

/-- Claim C9: to_tree_sitter_language is total on the closed enum (it is a
Lean function with no failure branch), and tree_sitter_language on a
config with a CargoLinked grammar reference always returns Some of that
dispatch, for every environment. -/
theorem c9_cargo_linked_total {T G : Type} (env : ExtEnv T G)
    (self : Language) (gid : Str) (l : CargoLinkedTreesitterLanguage)
    (h : self.tree_sitter_grammar_config = some ⟨gid, .CargoLinked l⟩) :
    self.tree_sitter_language env = some (l.to_tree_sitter_language env) := by
  simp [Language.tree_sitter_language, h]

/-- Witness for C9 at a concrete config and environment. -/
theorem c9_witness :
    langCargo.tree_sitter_grammar_config = some ⟨str "rust", .CargoLinked .Rust⟩
    ∧ langCargo.tree_sitter_language envDefaultOnly
      = some (CargoLinkedTreesitterLanguage.Rust.to_tree_sitter_language envDefaultOnly) :=
  ⟨by decide,
    c9_cargo_linked_total envDefaultOnly langCargo (str "rust") .Rust (by decide)⟩

/-- Claim C10: the grammar-configuration accessor returns None for every
config whose grammar reference is CargoLinked, and for a FromSource
reference it returns Some of the remote constructor applied to exactly the
config id, url, commit and subpath fields. -/
theorem c10_grammar_configuration_accessor {T G : Type} (env : ExtEnv T G)
    (self : Language) (config : GrammarConfig)
    (h : self.tree_sitter_grammar_config = some config) :
    (∀ l, config.kind = .CargoLinked l →
      self.tree_sitter_grammar_configuration env = none)
    ∧ (∀ url commit subpath, config.kind = .FromSource url commit subpath →
      self.tree_sitter_grammar_configuration env
        = some (env.remote config.id url commit subpath)) := by
  constructor
  · intro l hk
    simp [Language.tree_sitter_grammar_configuration, h, hk]
  · intro url commit subpath hk
    simp [Language.tree_sitter_grammar_configuration, h, hk]

/-- Witness for C10 at one CargoLinked and one FromSource config. -/
theorem c10_witness :
    langFromSource.tree_sitter_grammar_config
      = some ⟨str "lang", .FromSource (str "url") (str "commit") none⟩
    ∧ langFromSource.tree_sitter_grammar_configuration envDefaultOnly
      = some (envDefaultOnly.remote (str "lang") (str "url") (str "commit") none)
    ∧ langCargo.tree_sitter_grammar_config = some ⟨str "rust", .CargoLinked .Rust⟩
    ∧ langCargo.tree_sitter_grammar_configuration envDefaultOnly = none :=
  ⟨by decide,
    (c10_grammar_configuration_accessor envDefaultOnly langFromSource
      ⟨str "lang", .FromSource (str "url") (str "commit") none⟩ (by decide)).2
      (str "url") (str "commit") none (by decide),
    by decide,
    (c10_grammar_configuration_accessor envDefaultOnly langCargo
      ⟨str "rust", .CargoLinked .Rust⟩ (by decide)).1 .Rust (by decide)⟩

end Ki
